import Mathlib

/-!
# Shallow embedding of the `herenow/jrpc2` option plumbing and collaborators

This file embeds, as executable Lean definitions, the parts of the
`github.com/herenow/jrpc2` repository needed to settle the frozen claims:

* `jrpc2.ServerOptions` / `jrpc2.ClientOptions` and their nil-tolerant
  accessor methods (`concurrency`, `allowPush`, `allowBuiltin`,
  `decodeContext`, `encodeContext`, `handleNotification`);
* `channel.IsErrClosing` together with the Go `strings.Contains`;
* `chanutil.Framing` (framing lookup by name) and `server.LoopOptions.framing`;
* the accept-loop error handling of `server.Loop`;
* the reflective wrapper construction of `caller.New` (its type computation,
  panic behaviour, and the nil-slice parameter conversion);
* a model of the `jctx` context envelope (not under the sources; modelled
  from the specification).

Go conventions are mapped as follows: a possibly-nil pointer receiver or
field becomes an `Option`; a Go `error` value becomes `Option Err` with
`none` for `nil`; raw JSON text (`json.RawMessage`) becomes a `String`;
a Go `panic` in a function that otherwise returns a value is modelled with
`Except Err`.
-/

/-- Raw JSON message bytes (`json.RawMessage`), modelled as a string. -/
abbrev RawMessage := String

/-- Message text of a Go `error`.  A Go error value is `Option Err`, `none` = `nil`. -/
abbrev Err := String

/-- Model of `context.Context` as used by this library: a carrier of an
optional deadline (nanoseconds since the epoch) and an optional metadata
blob (attached by `jctx.WithMetadata`).  The library treats the context as
opaque apart from these two capabilities. -/
structure context.Context where
  deadline : Option Nat := none
  meta : Option RawMessage := none
deriving DecidableEq, Repr

/-- Model of `context.Background()`: no deadline, no metadata. -/
def context.Background : context.Context := {}

/-- A client request as materialised for the `OnNotify` callback
(`jrpc2.Request` with the `method` and `params` fields set, caller.go). -/
structure jrpc2.Request where
  method : String
  params : Option RawMessage
deriving DecidableEq, Repr

/-- Structure `jrpc2.ServerOptions` (caller.go lines 245-276).  `Logger` and `Metrics`
carry no behaviour relevant to the claims and are modelled as presence flags. -/
structure jrpc2.ServerOptions where
  Logger : Option Unit := none
  AllowV1 : Bool := false
  AllowPush : Bool := false
  DisableBuiltin : Bool := false
  Concurrency : Int := 0
  DecodeContext : Option (context.Context → RawMessage → context.Context × RawMessage × Option Err) := none
  Metrics : Option Unit := none

/-- Method `(*ServerOptions).allowV1` (caller.go line 286): `s != nil && s.AllowV1`. -/
def jrpc2.ServerOptions.allowV1 : Option jrpc2.ServerOptions → Bool
  | none => false
  | some s => s.AllowV1

/-- Method `(*ServerOptions).allowPush` (caller.go line 287): `s != nil && s.AllowPush`. -/
def jrpc2.ServerOptions.allowPush : Option jrpc2.ServerOptions → Bool
  | none => false
  | some s => s.AllowPush

/-- Method `(*ServerOptions).allowBuiltin` (caller.go line 288):
`s == nil || !s.DisableBuiltin`. -/
def jrpc2.ServerOptions.allowBuiltin : Option jrpc2.ServerOptions → Bool
  | none => true
  | some s => !s.DisableBuiltin

/-- Method `(*ServerOptions).concurrency` (caller.go lines 290-295), with the value
of `runtime.NumCPU()` passed in as `numCPU`:
`if s == nil || s.Concurrency < 1 { return int64(runtime.NumCPU()) };
return int64(s.Concurrency)`. -/
def jrpc2.ServerOptions.concurrency (s : Option jrpc2.ServerOptions) (numCPU : Int) : Int :=
  match s with
  | none => numCPU
  | some s => if s.Concurrency < 1 then numCPU else s.Concurrency

/-- The type of a server-side context decoder (caller.go line 297). -/
abbrev jrpc2.decoder := context.Context → RawMessage → context.Context × RawMessage × Option Err

/-- Method `(*ServerOptions).decodeContext` (caller.go lines 299-306): returns the
configured decoder and `true`, or the identity decoder and `false` when
unset or the options are nil. -/
def jrpc2.ServerOptions.decodeContext (s : Option jrpc2.ServerOptions) : jrpc2.decoder × Bool :=
  match s with
  | none => (fun ctx params => (ctx, params, none), false)
  | some s =>
    match s.DecodeContext with
    | none => (fun ctx params => (ctx, params, none), false)
    | some f => (f, true)

/-- Structure `jrpc2.ClientOptions` (caller.go lines 317-336).  The `OnNotify`
callback is modelled by its presence and the argument it would receive. -/
structure jrpc2.ClientOptions where
  Logger : Option Unit := none
  AllowV1 : Bool := false
  EncodeContext : Option (context.Context → RawMessage → RawMessage × Option Err) := none
  OnNotify : Option (jrpc2.Request → Unit) := none

/-- Method `(*ClientOptions).allowV1` (caller.go line 347). -/
def jrpc2.ClientOptions.allowV1 : Option jrpc2.ClientOptions → Bool
  | none => false
  | some c => c.AllowV1

/-- The type of a client-side context encoder (caller.go line 349). -/
abbrev jrpc2.encoder := context.Context → RawMessage → RawMessage × Option Err

/-- Method `(*ClientOptions).encodeContext` (caller.go lines 351-356): the
configured encoder, or the parameter-preserving identity when unset. -/
def jrpc2.ClientOptions.encodeContext (c : Option jrpc2.ClientOptions) : jrpc2.encoder :=
  match c with
  | none => fun _ params => (params, none)
  | some c =>
    match c.EncodeContext with
    | none => fun _ params => (params, none)
    | some f => f

/-- Modelled from the spec: the wire message type `jresponse` is not under
the sources (only `handleNotification` refers to it).  Per the data model a
message has an optional identifier, a method name (empty when absent) and
optional raw params. -/
structure jrpc2.jresponse where
  ID : Option RawMessage := none
  M : String := ""
  P : Option RawMessage := none
deriving DecidableEq, Repr

/-- Modelled from the spec: `(*jresponse).isServerRequest` is not under the
sources.  Per the receive path of the spec, a message with no id that carries a
`method` is a server push. -/
def jrpc2.jresponse.isServerRequest (r : jrpc2.jresponse) : Bool :=
  r.ID.isNone && !(r.M == "")

/-- Method `(*ClientOptions).handleNotification` (caller.go lines 358-370),
returning additionally the argument passed to the `OnNotify` callback
(`none` when the callback was not invoked):
when options or `OnNotify` are nil the produced handler ignores every
message and returns `false`; otherwise it invokes the callback on server
requests with `&Request{method: req.M, params: req.P}` and returns `true`,
and returns `false` on everything else. -/
def jrpc2.ClientOptions.handleNotification (c : Option jrpc2.ClientOptions)
    (req : jrpc2.jresponse) : Option jrpc2.Request × Bool :=
  match c with
  | none => (none, false)
  | some c =>
    match c.OnNotify with
    | none => (none, false)
    | some _ =>
      if req.isServerRequest then
        (some { method := req.M, params := req.P }, true)
      else
        (none, false)

/-- Model of `strings.Contains(haystack, needle)` of Go on rune lists: reports whether
`needle` occurs as a contiguous run inside `haystack`. -/
def strings.containsList (haystack needle : List Char) : Bool :=
  needle.isPrefixOf haystack ||
    match haystack with
    | [] => false
    | _ :: t => strings.containsList t needle

/-- Model of `strings.Contains` of Go on strings. -/
def strings.Contains (s substr : String) : Bool :=
  strings.containsList s.data substr.data

/-- Function `channel.IsErrClosing` (channel/doc.go lines 40-44):
`err != nil && strings.Contains(err.Error(), "use of closed network connection")`. -/
def channel.IsErrClosing : Option Err → Bool
  | none => false
  | some msg => strings.Contains msg "use of closed network connection"

/-- The five concrete framing disciplines exported by the `channel` package
(`channel.JSON`, `channel.Line`, `channel.LSP`, `channel.RawJSON`,
`channel.Varint`). -/
inductive channel.Framing where
  | JSON
  | Line
  | LSP
  | RawJSON
  | Varint
deriving DecidableEq, Repr

/-- Function `chanutil.Framing` (chanutil, src/unnamed/part_004 lines 16-24): looks a
framing up by name in the `framings` map; an unknown name yields the nil
framing, modelled by `none`. -/
def chanutil.Framing (name : String) : Option channel.Framing :=
  if name == "json" then some channel.Framing.JSON
  else if name == "line" then some channel.Framing.Line
  else if name == "lsp" then some channel.Framing.LSP
  else if name == "raw" then some channel.Framing.RawJSON
  else if name == "varint" then some channel.Framing.Varint
  else none

/-- Structure `server.LoopOptions` (server/loop.go lines 50-58). -/
structure server.LoopOptions where
  Framing : Option channel.Framing := none
  ServerOptions : Option jrpc2.ServerOptions := none

/-- Method `(*LoopOptions).serverOpts` (server/loop.go lines 60-65). -/
def server.LoopOptions.serverOpts : Option server.LoopOptions → Option jrpc2.ServerOptions
  | none => none
  | some o => o.ServerOptions

/-- Method `(*LoopOptions).framing` (server/loop.go lines 67-72):
`if o == nil || o.Framing == nil { return channel.RawJSON }; return o.Framing`. -/
def server.LoopOptions.framing : Option server.LoopOptions → channel.Framing
  | none => channel.Framing.RawJSON
  | some o =>
    match o.Framing with
    | none => channel.Framing.RawJSON
    | some f => f

/-- Function `server.Loop` (server/loop.go lines 17-46), abstracted over the finite
trace of results that `Accept` of its listener produces: each successful accept
spawns a server and the loop continues; the first `Accept` error terminates
the loop, which returns `nil` in place of an `IsErrClosing` error and the
error itself otherwise. -/
def server.Loop : List (Except Err Unit) → Option Err
  | [] => none
  | Except.ok _ :: rest => server.Loop rest
  | Except.error e :: _ => if channel.IsErrClosing (some e) then none else some e

/-- Modelled from the spec: the `jctx` package is not under the sources
(only its examples are).  The context envelope
`{"jctx":"1","deadline":RFC3339Nano?,"meta":<any>?,"payload":<params>}`
is modelled structurally: the `deadline` field carries the timestamp value
whose RFC3339Nano rendering appears on the wire (the rendering is
injective), and each optional field is an `Option`. -/
structure jctx.Envelope where
  V : String
  Deadline : Option Nat := none
  Meta : Option RawMessage := none
  Payload : Option RawMessage := none
deriving DecidableEq, Repr

/-- Modelled from the spec: `jctx.Encode` is not under the sources.  Per the
spec and the `jctx` examples, it wraps the params in a version-"1" envelope,
with the `deadline` field present exactly when the context carries a
deadline, the `meta` field present exactly when metadata was attached, and
the `payload` field present exactly when the params are non-empty. -/
def jctx.Encode (ctx : context.Context) (params : RawMessage) : jctx.Envelope × Option Err :=
  ({ V := "1"
     Deadline := ctx.deadline
     Meta := ctx.meta
     Payload := if params == "" then none else some params }, none)

/-- Modelled from the spec: `jctx.Decode` is not under the sources.  Per the
spec it is the mirror decoder: it restores the deadline and
metadata onto the given context and returns the payload as the params. -/
def jctx.Decode (ctx : context.Context) (env : jctx.Envelope) :
    context.Context × RawMessage × Option Err :=
  ({ deadline :=
       match env.Deadline with
       | some d => some d
       | none => ctx.deadline
     meta :=
       match env.Meta with
       | some m => some m
       | none => ctx.meta },
   env.Payload.getD "", none)

/-- Go types as far as `caller.New` inspects them via `reflect`: the only
structure it looks at is whether a type is a slice (and what it is a slice
of), plus the fixed `context.Context`, `*jrpc2.Client` and `error` types. -/
inductive GoType where
  | intT
  | float64T
  | stringT
  | boolT
  | ptr (t : GoType)
  | slice (elem : GoType)
  | structT (name : String)
  | ctxT
  | cliT
  | errT
deriving DecidableEq, Repr

/-- Structure `caller.Options` (caller/caller.go lines 200-221).  `Params` and
`Result` hold the `reflect.TypeOf` of the sample values, `none` for a nil
interface value. -/
structure caller.Options where
  Params : Option GoType := none
  Result : Option GoType := none
  Variadic : Bool := false
  Notify : Bool := false
deriving DecidableEq, Repr

/-- The request-argument type computed at the top of `caller.New`
(caller/caller.go lines 104-107): `reqType := reflect.TypeOf(X)`, and when
`opts.Variadic` is set, `reqType = reflect.SliceOf(reqType)`.  Calling
`reflect.SliceOf` on a nil `reflect.Type` panics in the Go runtime, which is
modelled by the error case. -/
def caller.reqTypeOf (opts : caller.Options) : Except Err (Option GoType) :=
  if opts.Variadic then
    match opts.Params with
    | none => Except.error "reflect: SliceOf of nil Type"
    | some t => Except.ok (some (GoType.slice t))
  else
    Except.ok opts.Params

/-- The type signature of the wrapper function constructed by `caller.New`
(`reflect.FuncOf(argTypes, outTypes, opts.Variadic)`). -/
structure caller.FuncSig where
  argTypes : List GoType
  outTypes : List GoType
  variadic : Bool
deriving DecidableEq, Repr

/-- The type-level behaviour of `caller.New` (caller/caller.go lines
99-126): build the argument types `[ctx, cli] (+ reqType)` and return types
`[rspType?, error]`, panicking (modelled as an error) when both the request
and response types are nil; the `reflect.SliceOf` panic of the variadic
nil-params case surfaces first, as in the source. -/
def caller.New (opts : caller.Options) : Except Err caller.FuncSig := do
  let reqType ← caller.reqTypeOf opts
  let argTypes := [GoType.ctxT, GoType.cliT] ++ reqType.toList
  let outTypes :=
    match opts.Result with
    | none => [GoType.errT]
    | some y => [y, GoType.errT]
  if reqType = none ∧ opts.Result = none then
    Except.error "no parameters and no result"
  else
    Except.ok { argTypes := argTypes, outTypes := outTypes, variadic := opts.Variadic }

/-- Go values as far as the `param` closure of `caller.New` and the JSON
encoder distinguish them: a slice value is either nil (`none`) or a list of
element values; everything else is passed through opaquely. -/
inductive GoValue where
  | intV (n : Int)
  | stringV (s : String)
  | boolV (b : Bool)
  | sliceV (elem : GoType) (elems : Option (List GoValue))
  | structV (name : String) (fields : List (String × GoValue))

/-- Model of `reflect.Value.IsNil` as used on the request argument: a nil slice. -/
def GoValue.isNilV : GoValue → Bool
  | GoValue.sliceV _ none => true
  | _ => false

mutual
/-- Rendering by `encoding/json` of the modelled Go values (string escaping
elided): a nil slice encodes as `null`, a non-nil slice as a JSON array. -/
def encodeJSON : GoValue → String
  | GoValue.intV n => toString n
  | GoValue.stringV s => "\"" ++ s ++ "\""
  | GoValue.boolV b => if b then "true" else "false"
  | GoValue.sliceV _ none => "null"
  | GoValue.sliceV _ (some xs) => "[" ++ encodeJSONList xs ++ "]"
  | GoValue.structV _ fs => "\x7b" ++ encodeJSONFields fs ++ "\x7d"

/-- Comma-separated rendering of array elements. -/
def encodeJSONList : List GoValue → String
  | [] => ""
  | [x] => encodeJSON x
  | x :: xs => encodeJSON x ++ "," ++ encodeJSONList xs

/-- Comma-separated rendering of object fields. -/
def encodeJSONFields : List (String × GoValue) → String
  | [] => ""
  | [(k, v)] => "\"" ++ k ++ "\":" ++ encodeJSON v
  | (k, v) :: fs => "\"" ++ k ++ "\":" ++ encodeJSON v ++ "," ++ encodeJSONFields fs
end

/-- The `param` closure built by `caller.New` (caller/caller.go lines
129-147), applied to the request argument `v[2]`: with no request type no
request argument is populated; with a slice request type a nil slice is
silently converted into `reflect.MakeSlice(reqType, 0, 0)`, the empty slice
of that type; otherwise the argument is passed through unchanged. -/
def caller.paramFn (reqType : Option GoType) (arg : GoValue) : Option GoValue :=
  match reqType with
  | none => none
  | some (GoType.slice e) =>
    if arg.isNilV then some (GoValue.sliceV e (some []))
    else some arg
  | some _ => some arg

/-- Modelled from the spec: the server type and its `Push` method are not
under the sources.  Per the `AllowPush` documentation (caller.go lines
253-256) and the spec, when pushes are not allowed the `Push` method
reports an error whenever it is called, and otherwise the notification is
emitted. -/
def jrpc2.Server.Push (opts : Option jrpc2.ServerOptions) (_method : String)
    (_params : Option RawMessage) : Option Err :=
  if jrpc2.ServerOptions.allowPush opts then none
  else some "server does not accept push notifications"

/-- Correctness of the embedded `strings.Contains` loop: it decides the
contiguous-substring (infix) relation on the character lists. -/
theorem strings.containsList_iff (needle haystack : List Char) :
    strings.containsList haystack needle = true ↔ needle <:+: haystack := by
  induction haystack with
  | nil =>
    simp [strings.containsList, List.isPrefixOf_iff_prefix, List.infix_nil, List.prefix_nil]
  | cons a t ih =>
    rw [strings.containsList]
    simp [List.isPrefixOf_iff_prefix, ih, List.infix_cons_iff]

/-- C1: for every `*ServerOptions` value `s`, including nil, the effective
concurrency limit computed by `concurrency()` equals `s.Concurrency` when
`s` is non-nil and `s.Concurrency` is at least 1, and equals
`runtime.NumCPU()` in every other case (configured value below one, or nil
options). -/
theorem claim_C1 (s : Option jrpc2.ServerOptions) (numCPU : Int) :
    (∀ o, s = some o → 1 ≤ o.Concurrency →
      jrpc2.ServerOptions.concurrency s numCPU = o.Concurrency)
    ∧ ((s = none ∨ ∃ o, s = some o ∧ o.Concurrency < 1) →
      jrpc2.ServerOptions.concurrency s numCPU = numCPU) := by
  constructor
  · rintro o rfl h
    simp [jrpc2.ServerOptions.concurrency, not_lt.mpr h]
  · rintro (rfl | ⟨o, rfl, h⟩)
    · rfl
    · simp [jrpc2.ServerOptions.concurrency, h]

/-- Witness for C1 at concrete options: a configured value of 3 is used as
given, while nil options and a configured value of 0 fall back to the CPU
count (here 8). -/
theorem claim_C1_witness :
    jrpc2.ServerOptions.concurrency (some { Concurrency := 3 }) 8 = 3
    ∧ jrpc2.ServerOptions.concurrency none 8 = 8
    ∧ jrpc2.ServerOptions.concurrency (some { Concurrency := 0 }) 8 = 8 :=
  ⟨(claim_C1 (some { Concurrency := 3 }) 8).1 _ rfl (by norm_num),
   (claim_C1 none 8).2 (Or.inl rfl),
   (claim_C1 (some { Concurrency := 0 }) 8).2 (Or.inr ⟨_, rfl, by norm_num⟩)⟩

/-- C5: the built-in `rpc.*` handler methods are enabled if and only if the
`ServerOptions` value is nil or its `DisableBuiltin` field is false;
setting `DisableBuiltin` to true makes `allowBuiltin()` return false. -/
theorem claim_C5 (s : Option jrpc2.ServerOptions) :
    (jrpc2.ServerOptions.allowBuiltin s = true ↔
      s = none ∨ ∃ o, s = some o ∧ o.DisableBuiltin = false)
    ∧ (∀ o, s = some o → o.DisableBuiltin = true →
      jrpc2.ServerOptions.allowBuiltin s = false) := by
  constructor
  · cases s with
    | none => simp [jrpc2.ServerOptions.allowBuiltin]
    | some o => simp [jrpc2.ServerOptions.allowBuiltin]
  · rintro o rfl h
    simp [jrpc2.ServerOptions.allowBuiltin, h]

/-- Witness for C5: builtins are on for nil options and off once
`DisableBuiltin` is set. -/
theorem claim_C5_witness :
    jrpc2.ServerOptions.allowBuiltin none = true
    ∧ jrpc2.ServerOptions.allowBuiltin (some { DisableBuiltin := true }) = false :=
  ⟨(claim_C5 none).1.mpr (Or.inl rfl),
   (claim_C5 (some { DisableBuiltin := true })).2 _ rfl rfl⟩

/-- C6: server-initiated notifications are permitted if and only if the
`ServerOptions` value is non-nil and its `AllowPush` field is true
(`allowPush()`); when pushes are not allowed, the `Push` method of the
server reports an error whenever it is called. -/
theorem claim_C6 (s : Option jrpc2.ServerOptions) (method : String) (params : Option RawMessage) :
    (jrpc2.ServerOptions.allowPush s = true ↔ ∃ o, s = some o ∧ o.AllowPush = true)
    ∧ (jrpc2.ServerOptions.allowPush s = false →
      ∃ msg, jrpc2.Server.Push s method params = some msg) := by
  constructor
  · cases s with
    | none => simp [jrpc2.ServerOptions.allowPush]
    | some o => simp [jrpc2.ServerOptions.allowPush]
  · intro h
    refine ⟨"server does not accept push notifications", ?_⟩
    simp [jrpc2.Server.Push, h]

/-- Witness for C6: with `AllowPush` set pushes are permitted; with nil
options `Push` reports an error. -/
theorem claim_C6_witness :
    jrpc2.ServerOptions.allowPush (some { AllowPush := true }) = true
    ∧ ∃ msg, jrpc2.Server.Push none "alert" (some "[1]") = some msg :=
  ⟨(claim_C6 (some { AllowPush := true }) "alert" none).1.mpr ⟨_, rfl, rfl⟩,
   (claim_C6 none "alert" (some "[1]")).2 rfl⟩

/-- C7: when `DecodeContext` is unset (or `ServerOptions` is nil), the
effective decoder returned by `decodeContext()` is the identity, returning
the same context, the same params, and a nil error (and reports itself as
not configured); symmetrically, when `EncodeContext` is unset (or
`ClientOptions` is nil), the effective encoder returned by
`encodeContext()` returns its params argument unchanged with a nil error. -/
theorem claim_C7 (s : Option jrpc2.ServerOptions) (c : Option jrpc2.ClientOptions)
    (ctx : context.Context) (params : RawMessage) :
    ((s = none ∨ ∃ o, s = some o ∧ o.DecodeContext = none) →
      (jrpc2.ServerOptions.decodeContext s).1 ctx params = (ctx, params, none)
      ∧ (jrpc2.ServerOptions.decodeContext s).2 = false)
    ∧ ((c = none ∨ ∃ co, c = some co ∧ co.EncodeContext = none) →
      jrpc2.ClientOptions.encodeContext c ctx params = (params, none)) := by
  constructor
  · rintro (rfl | ⟨o, rfl, h⟩)
    · exact ⟨rfl, rfl⟩
    · simp [jrpc2.ServerOptions.decodeContext, h]
  · rintro (rfl | ⟨co, rfl, h⟩)
    · rfl
    · simp [jrpc2.ClientOptions.encodeContext, h]

/-- Witness for C7 at nil options and a concrete context and params. -/
theorem claim_C7_witness :
    (jrpc2.ServerOptions.decodeContext none).1 { deadline := some 5 } "[1,2]" =
      ({ deadline := some 5 }, "[1,2]", none)
    ∧ (jrpc2.ServerOptions.decodeContext none).2 = false
    ∧ jrpc2.ClientOptions.encodeContext none { deadline := some 5 } "[1,2]" = ("[1,2]", none) :=
  ⟨((claim_C7 none none { deadline := some 5 } "[1,2]").1 (Or.inl rfl)).1,
   ((claim_C7 none none { deadline := some 5 } "[1,2]").1 (Or.inl rfl)).2,
   (claim_C7 none none { deadline := some 5 } "[1,2]").2 (Or.inl rfl)⟩

/-- C2: the incoming-notification handler produced by
`handleNotification()` invokes the `OnNotify` callback exactly on messages
that are server requests (carry a method and no id), returning true for
those and false otherwise; and when `OnNotify` is unset (or
`ClientOptions` is nil) the produced handler returns false for every
message, leaving every server push to be logged and discarded. -/
theorem claim_C2 (c : Option jrpc2.ClientOptions) (req : jrpc2.jresponse) :
    ((∃ co, c = some co ∧ co.OnNotify.isSome) →
      (((jrpc2.ClientOptions.handleNotification c req).1.isSome ↔
          req.ID = none ∧ req.M ≠ "")
        ∧ ((jrpc2.ClientOptions.handleNotification c req).2 = true ↔
          (jrpc2.ClientOptions.handleNotification c req).1.isSome)
        ∧ (∀ inv, (jrpc2.ClientOptions.handleNotification c req).1 = some inv →
          inv.method = req.M ∧ inv.params = req.P)))
    ∧ ((c = none ∨ ∃ co, c = some co ∧ co.OnNotify = none) →
      jrpc2.ClientOptions.handleNotification c req = (none, false)) := by
  constructor
  · rintro ⟨co, rfl, hset⟩
    rcases hn : co.OnNotify with _ | f
    · rw [hn] at hset; simp at hset
    · by_cases hreq : req.isServerRequest
      · have hid : req.ID = none := by
          have := hreq
          unfold jrpc2.jresponse.isServerRequest at this
          simp [Bool.and_eq_true, Option.isNone_iff_eq_none] at this
          exact this.1
        have hm : req.M ≠ "" := by
          have := hreq
          unfold jrpc2.jresponse.isServerRequest at this
          simp [Bool.and_eq_true] at this
          exact this.2
        simp [jrpc2.ClientOptions.handleNotification, hn, hreq, hid, hm]
      · have : ¬(req.ID = none ∧ req.M ≠ "") := by
          intro ⟨hid, hm⟩
          apply hreq
          unfold jrpc2.jresponse.isServerRequest
          simp [hid, hm]
        simp [jrpc2.ClientOptions.handleNotification, hn, hreq, this]
  · rintro (rfl | ⟨co, rfl, h⟩)
    · rfl
    · simp [jrpc2.ClientOptions.handleNotification, h]

/-- Witness for C2: with a callback installed, a message with method
`"pushback"` and no id invokes the callback and yields true, while a
response with an id does not; with nil options every message yields false. -/
theorem claim_C2_witness :
    jrpc2.ClientOptions.handleNotification
        (some { OnNotify := some fun _ => () }) { M := "pushback", P := some "[1]" } =
      (some { method := "pushback", params := some "[1]" }, true)
    ∧ jrpc2.ClientOptions.handleNotification none { M := "pushback", P := some "[1]" } =
      (none, false) := by
  constructor
  · have h := (claim_C2 (some { OnNotify := some fun _ => () })
      { M := "pushback", P := some "[1]" }).1 ⟨_, rfl, rfl⟩
    have hs : (jrpc2.ClientOptions.handleNotification
        (some { OnNotify := some fun _ => () })
        { M := "pushback", P := some "[1]" }).1.isSome := by
      exact h.1.mpr ⟨rfl, by simp⟩
    rcases hv : (jrpc2.ClientOptions.handleNotification
        (some { OnNotify := some fun _ => () })
        { M := "pushback", P := some "[1]" }).1 with _ | inv
    · rw [hv] at hs; simp at hs
    · have hinv := h.2.2 inv hv
      have hb := h.2.1.mpr hs
      have : inv = { method := "pushback", params := some "[1]" } := by
        cases inv
        simp at hinv
        simp [hinv]
      rw [this] at hv
      exact Prod.ext hv hb
  · exact (claim_C2 none { M := "pushback", P := some "[1]" }).2 (Or.inl rfl)

/-- C3: `channel.IsErrClosing(err)` reports true if and only if `err` is
non-nil and its message contains the substring
`use of closed network connection` (in particular it is false for a nil
error); and `server.Loop` returns nil instead of such an error from
`Accept`, treating the closed listener as a clean shutdown. -/
theorem claim_C3 (err : Option Err) (n : Nat) (e : Err) :
    (channel.IsErrClosing err = true ↔
      ∃ msg, err = some msg ∧ "use of closed network connection".data <:+: msg.data)
    ∧ channel.IsErrClosing none = false
    ∧ (channel.IsErrClosing (some e) = true →
      server.Loop (List.replicate n (Except.ok ()) ++ [Except.error e]) = none) := by
  refine ⟨?_, rfl, ?_⟩
  · cases err with
    | none => simp [channel.IsErrClosing]
    | some msg =>
      simp only [channel.IsErrClosing, strings.Contains, strings.containsList_iff]
      constructor
      · intro h
        exact ⟨msg, rfl, h⟩
      · rintro ⟨m, hm, h⟩
        cases hm
        exact h
  · intro h
    induction n with
    | zero => simp [server.Loop, h]
    | succ k ih => simpa [List.replicate_succ, server.Loop] using ih

/-- Witness for C3: a concrete closed-listener error is coerced to a clean
(nil) exit of the accept loop after two successful accepts. -/
theorem claim_C3_witness :
    server.Loop (List.replicate 2 (Except.ok ())
      ++ [Except.error "accept tcp 127.0.0.1:8080: use of closed network connection"]) =
      none :=
  (claim_C3 none 2 "accept tcp 127.0.0.1:8080: use of closed network connection").2.2
    (by decide)

/-- C4: `chanutil.Framing(name)` returns `channel.JSON`, `channel.Line`,
`channel.LSP`, `channel.RawJSON` and `channel.Varint` for the names
`json`, `line`, `lsp`, `raw` and `varint` respectively, and returns nil
for every other name; and `server.Loop` uses `channel.RawJSON` as its
framing whenever `LoopOptions` is nil or its `Framing` field is nil. -/
theorem claim_C4 (name : String) (o : Option server.LoopOptions) :
    chanutil.Framing "json" = some channel.Framing.JSON
    ∧ chanutil.Framing "line" = some channel.Framing.Line
    ∧ chanutil.Framing "lsp" = some channel.Framing.LSP
    ∧ chanutil.Framing "raw" = some channel.Framing.RawJSON
    ∧ chanutil.Framing "varint" = some channel.Framing.Varint
    ∧ (name ≠ "json" → name ≠ "line" → name ≠ "lsp" → name ≠ "raw" → name ≠ "varint" →
      chanutil.Framing name = none)
    ∧ ((o = none ∨ ∃ lo, o = some lo ∧ lo.Framing = none) →
      server.LoopOptions.framing o = channel.Framing.RawJSON) := by
  refine ⟨rfl, rfl, rfl, rfl, rfl, ?_, ?_⟩
  · intro h1 h2 h3 h4 h5
    simp [chanutil.Framing, h1, h2, h3, h4, h5]
  · rintro (rfl | ⟨lo, rfl, h⟩)
    · rfl
    · simp [server.LoopOptions.framing, h]

/-- Witness for C4: the name `tcp` maps to no framing, and nil loop
options select the `RawJSON` framing. -/
theorem claim_C4_witness :
    chanutil.Framing "tcp" = none
    ∧ server.LoopOptions.framing none = channel.Framing.RawJSON :=
  ⟨(claim_C4 "tcp" none).2.2.2.2.2.1 (by decide) (by decide) (by decide) (by decide) (by decide),
   (claim_C4 "tcp" none).2.2.2.2.2.2 (Or.inl rfl)⟩

/-- C8: `jctx.Encode` wraps the given params in a version-"1" envelope
whose deadline field is present exactly when the context carries a
deadline (and carries that deadline), and `jctx.Decode` of such an
envelope restores the same deadline onto the returned context and yields
the original payload: the encode/decode round-trip over a background
context restores the context and the params exactly. -/
theorem claim_C8 (ctx : context.Context) (params : RawMessage) :
    (jctx.Encode ctx params).2 = none
    ∧ (jctx.Encode ctx params).1.V = "1"
    ∧ (jctx.Encode ctx params).1.Deadline = ctx.deadline
    ∧ ((jctx.Encode ctx params).1.Deadline.isSome ↔ ctx.deadline.isSome)
    ∧ jctx.Decode context.Background (jctx.Encode ctx params).1 = (ctx, params, none) := by
  refine ⟨rfl, rfl, rfl, Iff.rfl, ?_⟩
  obtain ⟨d, m⟩ := ctx
  by_cases hp : params = ""
  · cases d <;> cases m <;>
      simp [jctx.Decode, jctx.Encode, context.Background, hp]
  · cases d <;> cases m <;>
      simp [jctx.Decode, jctx.Encode, context.Background, hp]

/-- Counterexample to C9 as stated: with `Params` nil, `Result` non-nil
and `Variadic` set, `caller.New` does not return a wrapper function at
all; it panics inside `reflect.SliceOf`, which is handed the nil request
type before the both-nil check is reached. -/
theorem claim_C9_counterexample :
    caller.New { Params := none, Result := some GoType.intT, Variadic := true } =
      Except.error "reflect: SliceOf of nil Type" := rfl

/-- C9 (amended): `caller.New` panics when both `Params` and `Result` are
nil (via the explicit check when `Variadic` is unset, via the
`reflect.SliceOf` panic when it is set); whenever `Params` is nil and
`Variadic` is set it panics in `reflect.SliceOf` regardless of `Result`;
and when at least one of `Params`/`Result` is non-nil and additionally
`Params` is non-nil or `Variadic` is unset, `New` returns a wrapper whose
signature includes the request argument exactly when `Params` is non-nil
and the result value exactly when `Result` is non-nil. -/
theorem claim_C9_amended (opts : caller.Options) :
    (opts.Params = none ∧ opts.Result = none → ∃ msg, caller.New opts = Except.error msg)
    ∧ (opts.Params = none → opts.Result = none → opts.Variadic = false →
      caller.New opts = Except.error "no parameters and no result")
    ∧ (opts.Params = none → opts.Variadic = true →
      caller.New opts = Except.error "reflect: SliceOf of nil Type")
    ∧ ((opts.Params ≠ none ∨ opts.Result ≠ none) →
        (opts.Params ≠ none ∨ opts.Variadic = false) →
      ∃ sig, caller.New opts = Except.ok sig
        ∧ (sig.argTypes.length = 3 ↔ opts.Params ≠ none)
        ∧ (sig.argTypes.length = 2 ↔ opts.Params = none)
        ∧ (sig.outTypes.length = 2 ↔ opts.Result ≠ none)
        ∧ (sig.outTypes.length = 1 ↔ opts.Result = none)
        ∧ sig.variadic = opts.Variadic) := by
  obtain ⟨P, R, V, N⟩ := opts
  refine ⟨?_, ?_, ?_, ?_⟩
  · rintro ⟨hP, hR⟩
    simp only at hP hR
    subst hP; subst hR
    cases V
    · exact ⟨"no parameters and no result", rfl⟩
    · exact ⟨"reflect: SliceOf of nil Type", rfl⟩
  · intro hP hR hV
    simp only at hP hR hV
    subst hP; subst hR; subst hV
    rfl
  · intro hP hV
    simp only at hP hV
    subst hP; subst hV
    rfl
  · intro h1 h2
    simp only at h1 h2
    rcases P with _ | x
    · rcases h2 with h2 | h2
      · exact absurd rfl h2
      · subst h2
        rcases R with _ | y
        · rcases h1 with h1 | h1 <;> exact absurd rfl h1
        · exact ⟨_, rfl, by simp, by simp, by simp, by simp, rfl⟩
    · cases V <;> rcases R with _ | y <;>
        exact ⟨_, rfl, by simp, by simp, by simp, by simp, rfl⟩

/-- Witness for C9 (amended) at concrete option values: both nil panics
with the check message; nil `Params` with `Variadic` panics in
`reflect.SliceOf`; a slice-to-int wrapper is constructed. -/
theorem claim_C9_witness :
    caller.New { Params := none, Result := none } = Except.error "no parameters and no result"
    ∧ caller.New { Params := none, Result := some GoType.intT, Variadic := true } =
      Except.error "reflect: SliceOf of nil Type"
    ∧ ∃ sig, caller.New { Params := some (GoType.slice GoType.intT), Result := some GoType.intT } =
        Except.ok sig ∧ sig.argTypes.length = 3 ∧ sig.outTypes.length = 2 := by
  refine ⟨?_, ?_, ?_⟩
  · exact (claim_C9_amended { Params := none, Result := none }).2.1 rfl rfl rfl
  · exact (claim_C9_amended { Params := none, Result := some GoType.intT, Variadic := true }).2.2.1
      rfl rfl
  · obtain ⟨sig, hok, h3, _, h2, _, _⟩ :=
      (claim_C9_amended { Params := some (GoType.slice GoType.intT), Result := some GoType.intT }).2.2.2
        (Or.inl (by simp)) (Or.inl (by simp))
    exact ⟨sig, hok, h3.mpr (by simp), h2.mpr (by simp)⟩

/-- C10: for every wrapper built by `caller.New` whose request parameter
type is a slice (including the `Variadic` case, whose computed request
type is always a slice), calling the wrapper with a nil slice passes the
empty slice of that type as the request parameter instead of nil, so the
params encode as `[]` rather than `null`; a non-nil slice or a non-slice
parameter type is passed through unchanged. -/
theorem claim_C10 (e t : GoType) (arg : GoValue) (opts : caller.Options) :
    caller.paramFn (some (GoType.slice e)) (GoValue.sliceV e none) =
      some (GoValue.sliceV e (some []))
    ∧ encodeJSON (GoValue.sliceV e (some [])) = "[]"
    ∧ encodeJSON (GoValue.sliceV e none) = "null"
    ∧ (arg.isNilV = false → caller.paramFn (some (GoType.slice e)) arg = some arg)
    ∧ ((∀ u, t ≠ GoType.slice u) → caller.paramFn (some t) arg = some arg)
    ∧ (opts.Variadic = true → ∀ x, opts.Params = some x →
      caller.reqTypeOf opts = Except.ok (some (GoType.slice x))) := by
  refine ⟨rfl, rfl, rfl, ?_, ?_, ?_⟩
  · intro h
    simp [caller.paramFn, h]
  · intro h
    cases t with
    | slice u => exact absurd rfl (h u)
    | _ => rfl
  · intro hv x hx
    simp [caller.reqTypeOf, hv, hx]

/-- Witness for C10 at concrete values: a nil `[]int` becomes the empty
slice encoding as `[]`, a non-nil `[]int` and a string argument pass
through, and a variadic int option computes the slice request type. -/
theorem claim_C10_witness :
    caller.paramFn (some (GoType.slice GoType.intT)) (GoValue.sliceV GoType.intT none) =
      some (GoValue.sliceV GoType.intT (some []))
    ∧ encodeJSON (GoValue.sliceV GoType.intT (some [])) = "[]"
    ∧ caller.paramFn (some (GoType.slice GoType.intT))
        (GoValue.sliceV GoType.intT (some [GoValue.intV 1])) =
      some (GoValue.sliceV GoType.intT (some [GoValue.intV 1]))
    ∧ caller.paramFn (some GoType.stringT) (GoValue.stringV "a") = some (GoValue.stringV "a")
    ∧ caller.reqTypeOf { Params := some GoType.intT, Variadic := true } =
      Except.ok (some (GoType.slice GoType.intT)) := by
  refine ⟨?_, ?_, ?_, ?_, ?_⟩
  · exact (claim_C10 GoType.intT GoType.stringT (GoValue.stringV "a")
      { Params := some GoType.intT, Variadic := true }).1
  · exact (claim_C10 GoType.intT GoType.stringT (GoValue.stringV "a")
      { Params := some GoType.intT, Variadic := true }).2.1
  · exact (claim_C10 GoType.intT GoType.stringT
      (GoValue.sliceV GoType.intT (some [GoValue.intV 1]))
      { Params := some GoType.intT, Variadic := true }).2.2.2.1 rfl
  · exact (claim_C10 GoType.intT GoType.stringT (GoValue.stringV "a")
      { Params := some GoType.intT, Variadic := true }).2.2.2.2.1 (fun u h => by cases h)
  · exact (claim_C10 GoType.intT GoType.stringT (GoValue.stringV "a")
      { Params := some GoType.intT, Variadic := true }).2.2.2.2.2 rfl GoType.intT rfl
